import Mathlib

/-!
Shallow embedding of the cdist remote executor (`cdist/exec/remote.py`) and of
the process-invocation helpers (`cdist/exec/util.py`), together with models of
the external collaborators the executor calls into (`cdist.util.shquot`,
`cdist.util.ipaddr`, `cdist.autil`), which are not part of the sources and are
therefore modelled from the specification's description of their interfaces.
-/

namespace CdistExec

/-! ### POSIX path helpers (the `os.path` fragment used by the executor) -/

/-- Whether the first character of `s` is `c` (`s.startswith(c)` for a
single-character pattern). -/
def firstCharIs (s : String) (c : Char) : Bool :=
  match s.toList with
  | [] => false
  | a :: _ => a = c

/-- Whether the last character of `s` is `c` (`s.endswith(c)` for a
single-character pattern). -/
def lastCharIs (s : String) (c : Char) : Bool :=
  match s.toList.reverse with
  | [] => false
  | a :: _ => a = c

/-- The elements joined with `sep` between consecutive elements
(`sep.join(...)`). -/
def sepJoin (sep : String) : List String → String
  | [] => ""
  | [a] => a
  | a :: rest => a ++ sep ++ sepJoin sep rest

/-- Embeds `os.path.join a b` for the cases arising here: an absolute right
operand wins, otherwise the two parts are joined with a single `/`. -/
def pjoin (a b : String) : String :=
  if firstCharIs b '/' then b
  else if a = "" then b
  else if lastCharIs a '/' then a ++ b
  else a ++ "/" ++ b

/-- Embeds `os.path.basename`: the part of the path after the last slash. -/
def pbasename (p : String) : String :=
  String.mk ((p.toList.reverse.takeWhile (fun c => c ≠ '/')).reverse)

/-- Embeds `os.path.dirname`: everything up to the last slash; the slash is
dropped unless the head consists solely of slashes (as `posixpath.dirname`
does with its `rstrip` step). -/
def pdirname (p : String) : String :=
  let head := (p.toList.reverse.dropWhile (fun c => c ≠ '/')).reverse
  if head.all (fun c => c = '/') then String.mk head
  else String.mk ((head.reverse.dropWhile (fun c => c = '/')).reverse)

/-- Embeds the Python expression `a & ~m` on non-negative integers: the bits
`a` shares with `m` are cleared.  `a &&& m` sets no bit outside `a`, so the
subtraction is exact and equals the bitwise difference. -/
def pyAndNot (a m : Nat) : Nat := a - (a &&& m)

/-- Embeds the `%o` conversion: `n` rendered in octal digits. -/
def octalStr (n : Nat) : String := String.mk (Nat.toDigits 8 n)

/-- Embeds the `%04o` conversion: octal, zero-padded to at least four
digits. -/
def octal4 (n : Nat) : String :=
  let ds := Nat.toDigits 8 n
  String.mk (List.replicate (4 - ds.length) '0' ++ ds)

namespace shquot

/-- Modelled from the spec: characters a POSIX shell treats as safe to leave
unquoted, as used by the shell-splitting/quoting collaborator
(`cdist.util.shquot`, not under `src/`). -/
def safeChar (c : Char) : Bool :=
  c.isAlphanum || c = '_' || c = '@' || c = '%' || c = '+' || c = '=' ||
    c = ':' || c = ',' || c = '.' || c = '/' || c = '-'

/-- Modelled from the spec: `shquot.quote` "quotes a single argument" — a
non-empty argument of safe characters is returned unchanged, anything else is
wrapped in single quotes with embedded single quotes escaped. -/
def quote (s : String) : String :=
  if s = "" then "''"
  else if s.toList.all safeChar then s
  else "'" ++ String.join (s.toList.map (fun c =>
    if c = '\'' then "'\"'\"'" else String.mk [c])) ++ "'"

/-- Modelled from the spec: `shquot.join` "joins an argument vector into a
shell-safe string" — the quoted arguments separated by single spaces. -/
def join (args : List String) : String :=
  sepJoin " " (args.map quote)

end shquot

namespace ipaddr

/-- The colon-separated groups of a character sequence (Python
`str.split(":")` semantics: the empty sequence yields one empty group). -/
def splitColon : List Char → List (List Char)
  | [] => [[]]
  | c :: cs =>
      let r := splitColon cs
      if c = ':' then [] :: r
      else
        match r with
        | [] => [[c]]
        | g :: gs => (c :: g) :: gs

/-- Splits a character sequence at the first occurrence of a double colon,
returning the parts before and after it, or `none` when there is none. -/
def splitDC : List Char → Option (List Char × List Char)
  | [] => none
  | [_] => none
  | a :: b :: t =>
      if a = ':' && b = ':' then some ([], t)
      else
        match splitDC (b :: t) with
        | none => none
        | some (l, r) => some (a :: l, r)

/-- Whether a character sequence contains a double colon. -/
def hasDC : List Char → Bool
  | [] => false
  | [_] => false
  | a :: b :: t => (a = ':' && b = ':') || hasDC (b :: t)

/-- A group of an IPv6 literal: one to four hexadecimal digits. -/
def hexGroup (g : List Char) : Bool :=
  decide (1 ≤ g.length) && decide (g.length ≤ 4) &&
    g.all (fun c =>
      c.isDigit || ('a' ≤ c && c ≤ 'f') || ('A' ≤ c && c ≤ 'F'))

/-- Modelled from the spec: `ipaddr.is_ipv6` (module not under `src/`) tests
whether an address is a syntactically valid IPv6 literal: eight
colon-separated hexadecimal groups, or at most seven groups around a single
`::` compression.  Mixed IPv6/IPv4 forms are outside this model. -/
def is_ipv6 (s : String) : Bool :=
  let cs := s.toList
  match splitDC cs with
  | none =>
      let gs := splitColon cs
      decide (gs.length = 8) && gs.all hexGroup
  | some (l, r) =>
      if hasDC r then false
      else
        let gl := if l = [] then [] else splitColon l
        let gr := if r = [] then [] else splitColon r
        decide (gl.length + gr.length ≤ 7) && gl.all hexGroup
          && gr.all hexGroup

end ipaddr

/-! ### Remote command construction (`cdist/exec/remote.py`) -/

/-- Embeds `_wrap_addr`: an IPv6 address is returned wrapped between `[`
and `]`, anything else unchanged. -/
def wrap_addr (addr : String) : String :=
  if ipaddr.is_ipv6 addr then "[" ++ addr ++ "]" else addr

/-- The `command` argument of `Remote.run`: a Python list (each item quoted
when joined) or a plain string (used verbatim). -/
inductive Command where
  | args (l : List String)
  | str (content : String)
deriving DecidableEq

/-- Embeds the `isinstance(command, (list, tuple))` dispatch of `Remote.run`:
a list is joined with shell quoting, a plain string is kept verbatim. -/
def Command.toStr : Command → String
  | .args l => shquot.join l
  | .str s => s

/-- Embeds the argument-vector construction of `Remote.run`: the
remote-execution template tokens, then the target address, then the composed
remote command string — wrapped in `/bin/sh -c '…'` with `export` assignments
prepended when `env` is non-empty. -/
def run_argv (exec : List String) (addr : String) (command : Command)
    (env : List (String × String)) : List String :=
  let cmd := exec ++ [addr]
  let commandStr := command.toStr
  if env.isEmpty then cmd ++ [commandStr]
  else
    let remote_env := "export " ++ sepJoin " "
      (env.map (fun p => p.1 ++ "=" ++ (if p.2 = "" then "" else shquot.quote p.2)))
      ++ "; "
    cmd ++ ["/bin/sh -c " ++ shquot.quote (remote_env ++ commandStr)]

/-- Embeds `Remote.run_script`: builds the `["exec", <remote shell>, "-e",
<script>]` list and delegates to `run`. -/
def run_script_argv (exec : List String) (addr : String)
    (remote_shell script : String) (env : List (String × String)) : List String :=
  run_argv exec addr (.args ["exec", remote_shell, "-e", script]) env

/-- Embeds the argument-vector construction of `Remote._transfer_file`:
`<template> <address> "cat ><dest>"`, with the umask/chmod wrapper when a
umask was supplied.  `srcMode` is the `st_mode` of the local source file;
`stat.S_IMODE` masks it with `0o7777`. -/
def transfer_file_cmd (exec : List String) (addr : String)
    (destination : String) (srcMode : Nat) (umask : Option Nat) : List String :=
  let remote_cmd := "cat >" ++ shquot.quote destination
  let remote_cmd := match umask with
    | none => remote_cmd
    | some m =>
        let mode := pyAndNot (srcMode &&& 0o7777) m
        "umask " ++ octal4 m ++ "; " ++ remote_cmd ++ " && chmod "
          ++ octalStr mode ++ " " ++ shquot.quote destination
  exec ++ [addr, remote_cmd]

/-- Embeds `Remote.mkdir`'s construction of the remote command string:
`mkdir -p <quoted path>`, rewritten as
`umask <m>; mkdir -p <quoted path> && chmod <mode> <quoted path>` when a
umask is given, with `mode = 0o777 & ~umask`. -/
def mkdir_cmd (path : String) (umask : Option Nat) : String :=
  let cmd := "mkdir -p " ++ shquot.quote path
  match umask with
  | none => cmd
  | some m =>
      let mode := pyAndNot 0o777 m
      "umask " ++ octal4 m ++ "; " ++ cmd ++ " && chmod " ++ octalStr mode
        ++ " " ++ shquot.quote path

/-! ### Low-level invocation (`Remote._run_command`) -/

/-- Models the Python `str()` rendering of an argument list, as it appears in
`str(error.args[1])` for a `CalledProcessError` (whose `args[1]` is the
command list).  Escaping of quotes inside arguments is not modelled. -/
def pyStrList (l : List String) : String :=
  "[" ++ sepJoin ", " (l.map (fun s => "'" ++ s ++ "'")) ++ "]"

/-- The observable behaviour of the child process spawned by
`subprocess.check_output` / `subprocess.check_call`: whether launching raised
an `OSError` (carrying its `args[1]` description), the exit status, the
captured stdout as decoded text (`none` when the bytes cannot be decoded,
which is what makes `.decode()` raise `UnicodeDecodeError`), and whether the
bytes found in the stdout and stderr sink files decode as text when
`util.log_std_fd` reads them back (`stdfd.read().decode()`) for trace
logging after a successful run. -/
structure ChildBehavior where
  launchError : Option String
  exitCode : Nat
  output : Option String
  stdoutSinkDecodes : Bool
  stderrSinkDecodes : Bool
deriving DecidableEq

/-- The two error kinds `Remote._run_command` can raise: `cdist.Error` with
its message string, and `DecodeError` carrying the offending command. -/
inductive RunError where
  | execError (emsg : String)
  | decodeError (command : List String)
deriving DecidableEq

/-- Which output sinks `_run_command` opened itself and which it closed in
its `finally` block. -/
structure SinkReport where
  openedStdout : Bool
  openedStderr : Bool
  closedStdout : Bool
  closedStderr : Bool
deriving DecidableEq

/-- Embeds `Remote._run_command`: opens default sinks when the caller
supplied none (stdout only when output return was not requested), runs the
child, turns launch failures and non-zero exits into `cdist.Error` with the
rendered command line, turns undecodable captured output into `DecodeError`,
then — still inside the `try` — lets `util.log_std_fd` read the stderr sink
and, when the local stdout variable is not `None` (output return not
requested, or a caller-supplied sink), the stdout sink back for trace
logging; a `UnicodeDecodeError` in those `read().decode()` calls is caught
by the same handler and becomes the same `DecodeError`.  Exactly the
self-opened sinks are closed on every path (the `finally` block).
Caller-supplied sinks are modelled as readable files (a `subprocess.DEVNULL`
sink, which `log_std_fd` skips, is outside the model). -/
def run_command (command : List String) (returnOutput : Bool)
    (stdoutSupplied stderrSupplied : Bool) (child : ChildBehavior) :
    Except RunError (Option String) × SinkReport :=
  let closeStdout := !returnOutput && !stdoutSupplied
  let closeStderr := !stderrSupplied
  let stdoutPresent := !returnOutput || stdoutSupplied
  let res : Except RunError (Option String) :=
    match child.launchError with
    | some oserr => .error (.execError (shquot.join command ++ ": " ++ oserr))
    | none =>
        if child.exitCode ≠ 0 then
          .error (.execError (shquot.join command ++ ": " ++ pyStrList command))
        else
          match (if returnOutput then
                   match child.output with
                   | some out => Except.ok (some out)
                   | none => Except.error (RunError.decodeError command)
                 else Except.ok none : Except RunError (Option String)) with
          | .error e => .error e
          | .ok output =>
              if !child.stderrSinkDecodes then
                .error (.decodeError command)
              else if stdoutPresent && !child.stdoutSinkDecodes then
                .error (.decodeError command)
              else .ok output
  (res, ⟨closeStdout, closeStderr, closeStdout, closeStderr⟩)

/-- Embeds `Remote.run` end to end: the argument vector built by `run_argv`
handed to `_run_command`. -/
def run (exec : List String) (addr : String) (command : Command)
    (env : List (String × String)) (returnOutput : Bool)
    (stdoutSupplied stderrSupplied : Bool) (child : ChildBehavior) :
    Except RunError (Option String) × SinkReport :=
  run_command (run_argv exec addr command env) returnOutput
    stdoutSupplied stderrSupplied child

/-! ### The transfer protocol (`Remote.transfer`, `Remote._transfer_dir`) -/

mutual
/-- A local source-tree entry, with its name as `os.listdir` reports it. -/
inductive FsEntry : Type where
  | file (name : String)
  | dir (name : String) (sub : FsForest)
inductive FsForest : Type where
  | nil
  | cons (head : FsEntry) (tail : FsForest)
end

/-- The name of a directory entry. -/
def entryName : FsEntry → String
  | .file n => n
  | .dir n _ => n

/-- Whether `glob.glob1(source, "*")` lists the entry: the `"*"` pattern has
no leading dot, so `glob` hides entries whose names start with a dot. -/
def visibleEntry (e : FsEntry) : Bool := !(firstCharIs (entryName e) '.')

/-- The externally observable actions `transfer` performs, in order. -/
inductive TransferEvent where
  | mkdirRemote (path : String) (umask : Option Nat)
  | streamFile (source destination : String) (umask : Option Nat)
  | archiveCreate (source tarpath : String)
  | extractRemote (path dir : String) (opts : List String)
  | rmfileRemote (path : String)
  | removeLocal (path : String)
deriving DecidableEq

/-- The archiving-mode descriptor: carries the mode-specific extraction
options appended to the remote `tar` command. -/
structure ArchivingMode where
  extract_opts : List String
deriving DecidableEq

mutual
/-- Total number of files below an entry, hidden ones included — the count
`cdist.autil.tar` derives from `os.walk`. -/
def entryFileCount : FsEntry → Nat
  | .file _ => 1
  | .dir _ sub => forestFileCount sub
/-- Total number of files in a forest, hidden ones included. -/
def forestFileCount : FsForest → Nat
  | .nil => 0
  | .cons e t => entryFileCount e + forestFileCount t
end

mutual
/-- Number of files below an entry reachable through the plain transfer walk,
i.e. with every path component visible to `glob1(·, "*")`. -/
def entryVisibleFiles : FsEntry → Nat
  | .file _ => 1
  | .dir _ sub => forestVisibleFiles sub
/-- Number of files of a forest reachable through the plain transfer walk. -/
def forestVisibleFiles : FsForest → Nat
  | .nil => 0
  | .cons e t =>
      (if visibleEntry e then entryVisibleFiles e else 0) + forestVisibleFiles t
end

mutual
/-- Events of `Remote._transfer_dir` for one listed entry: a subdirectory is
created remotely (umask propagated) and recursed into, a file is streamed. -/
def entryEvents (umask : Option Nat) (src dst : String) :
    FsEntry → List TransferEvent
  | .file n => [.streamFile (pjoin src n) (pjoin dst n) umask]
  | .dir n sub =>
      .mkdirRemote (pjoin dst n) umask ::
        forestEvents umask (pjoin src n) (pjoin dst n) sub
/-- Embeds `Remote._transfer_dir`: iterate over `glob.glob1(source, "*")`
(entries in listing order, dot-entries hidden) and act on each. -/
def forestEvents (umask : Option Nat) (src dst : String) :
    FsForest → List TransferEvent
  | .nil => []
  | .cons e t =>
      (if visibleEntry e then entryEvents umask src dst e else []) ++
        forestEvents umask src dst t
end

/-- Modelled from the spec: the archive builder's file-count threshold
(`cdist.autil.FILES_LIMIT`, not under `src/`).  The spec fixes no numeric
value; the theorems below depend only on the comparison, not the value. -/
def FILES_LIMIT : Nat := 10

/-- Modelled from the spec: the archive builder collaborator
(`cdist.autil.tar`, not under `src/`) "returns either (archive path, file
count) or (absent, file count) when below a file-count threshold".
`tarpath` stands for the fresh local temporary archive path it would
create. -/
def autil_tar (sub : FsForest) (tarpath : String) : Option String × Nat :=
  let fcnt := forestFileCount sub
  (if FILES_LIMIT ≤ fcnt then some tarpath else none, fcnt)

/-- The source argument of `transfer`: a plain file or a directory tree. -/
inductive FsNode where
  | file
  | dir (sub : FsForest)

/-- Embeds `Remote.transfer`.  Returns the ordered list of performed actions
and, in the second component, the message of the raised `cdist.Error` when
the call is a contract violation (non-directory source with truthy
`jobs`). -/
def transfer (node : FsNode) (source destination : String) (jobs : Bool)
    (umask : Option Nat) (archivingMode : Option ArchivingMode)
    (tarpath : String) : List TransferEvent × Option String :=
  match node with
  | .dir sub =>
      let mkev : List TransferEvent := [.mkdirRemote destination umask]
      match archivingMode with
      | some mode =>
          match autil_tar sub tarpath with
          | (some tp, _) =>
              let tarname := pbasename tp
              let desttarpath := pjoin destination tarname
              (mkev ++
                [.archiveCreate source tp,
                 .streamFile tp desttarpath none,
                 .extractRemote desttarpath (pdirname desttarpath)
                   mode.extract_opts,
                 .rmfileRemote desttarpath,
                 .removeLocal tp], none)
          | (none, _) =>
              (mkev ++ forestEvents umask source destination sub, none)
      | none => (mkev ++ forestEvents umask source destination sub, none)
  | .file =>
      if jobs then ([], some ("Source " ++ source ++ " is not a directory"))
      else ([.streamFile source destination umask], none)

/-- Whether an event is a streamed file transfer (`Remote._transfer_file`). -/
def isStreamEvent : TransferEvent → Bool
  | .streamFile _ _ _ => true
  | _ => false

/-- Whether an event belongs to the archive machinery: archive creation,
remote extraction, remote archive deletion or local archive deletion. -/
def isArchiveEvent : TransferEvent → Bool
  | .archiveCreate _ _ => true
  | .extractRemote _ _ _ => true
  | .rmfileRemote _ => true
  | .removeLocal _ => true
  | _ => false

/-- The number of streamed file transfers among the events. -/
def streamCount (evs : List TransferEvent) : Nat :=
  (evs.filter isStreamEvent).length

/-- The number of archive-machinery events among the events. -/
def archiveCount (evs : List TransferEvent) : Nat :=
  (evs.filter isArchiveEvent).length

mutual
/-- The relative paths (as component lists) of the files below an entry that
the plain transfer walk reaches. -/
def entryFilePaths : FsEntry → List (List String)
  | .file n => [[n]]
  | .dir n sub => (forestFilePaths sub).map (fun p => n :: p)
/-- The relative paths of the files of a forest that the plain transfer walk
reaches: every path component must be visible to `glob1(·, "*")`. -/
def forestFilePaths : FsForest → List (List String)
  | .nil => []
  | .cons e t =>
      (if visibleEntry e then entryFilePaths e else []) ++ forestFilePaths t
end

mutual
/-- The relative paths of the subdirectories below an entry that the plain
transfer walk reaches. -/
def entryDirPaths : FsEntry → List (List String)
  | .file _ => []
  | .dir n sub => [n] :: (forestDirPaths sub).map (fun p => n :: p)
/-- The relative paths of the subdirectories of a forest that the plain
transfer walk reaches. -/
def forestDirPaths : FsForest → List (List String)
  | .nil => []
  | .cons e t =>
      (if visibleEntry e then entryDirPaths e else []) ++ forestDirPaths t
end

/-- A base path extended by a relative path, one `os.path.join` per
component — the "source prefix replaced by the destination prefix"
correspondence of the transfer walk. -/
def joinAll (base : String) (p : List String) : String := p.foldl pjoin base

/-! ### Process helpers (`cdist/exec/util.py`) -/

/-- Embeds `OrderedDict.fromkeys` over a traversal: keep each element at its
first occurrence, `seen` being the keys already inserted. -/
def dedupAcc : List String → List String → List String
  | [], _ => []
  | x :: xs, seen =>
      if x ∈ seen then dedupAcc xs seen else x :: dedupAcc xs (x :: seen)

/-- Embeds `resolve_conf_dirs(*args)`:
`list(OrderedDict.fromkeys(itertools.chain.from_iterable(args)))`. -/
def resolve_conf_dirs (args : List (List String)) : List String :=
  dedupAcc args.flatten []

/-! ### Helper lemmas -/

theorem strAppendAssoc (a b c : String) : a ++ b ++ c = a ++ (b ++ c) := by
  cases a
  cases b
  cases c
  show String.mk _ = String.mk _
  rw [List.append_assoc]

theorem tokenAfter (exec : List String) (a : String) (rest : List String) :
    (exec ++ a :: rest)[exec.length]? = some a := by
  rw [List.getElem?_append_right (Nat.le_refl _)]
  simp

/-! ### Claim theorems -/

/-- Claim C8: `mkdir` with umask `m` issues
`umask <m as four octal digits>; mkdir -p <quoted p> && chmod <0o777 with the
umask bits cleared, rendered in octal> <quoted p>`; umask `0o022` yields a
chmod mode of `0755`; without a umask it issues only
`mkdir -p <quoted p>`. -/
theorem c8_mkdir_command (p : String) (m : Nat) :
    mkdir_cmd p (some m)
        = "umask " ++ octal4 m ++ "; " ++ ("mkdir -p " ++ shquot.quote p)
            ++ " && chmod " ++ octalStr (pyAndNot 0o777 m) ++ " "
            ++ shquot.quote p
      ∧ pyAndNot 0o777 0o022 = 0o755
      ∧ mkdir_cmd "/x/y" (some 0o022)
          = "umask 0022; mkdir -p /x/y && chmod 755 /x/y"
      ∧ mkdir_cmd p none = "mkdir -p " ++ shquot.quote p :=
  ⟨rfl, by decide, by decide, rfl⟩

/-- Claim C3: `transfer` with a non-directory source and a truthy `jobs`
raises the contract-violation `cdist.Error` synchronously: no remote command
is issued and no transfer of the source is attempted (the event list is
empty). -/
theorem c3_transfer_contract_violation (source destination : String)
    (umask : Option Nat) (am : Option ArchivingMode) (tarpath : String) :
    transfer .file source destination true umask am tarpath
      = ([], some ("Source " ++ source ++ " is not a directory")) := rfl

/-- Claim C10: `transfer` with a non-directory source and falsy `jobs`
streams the source as a plain file and raises nothing; a truthy `jobs` with a
directory source is silently ignored — the result is the same as with falsy
`jobs`, and no error is raised. -/
theorem c10_transfer_jobs_ignored_for_dirs (source destination : String)
    (umask : Option Nat) (am : Option ArchivingMode) (tarpath : String)
    (sub : FsForest) (jobs : Bool) :
    transfer .file source destination false umask am tarpath
        = ([.streamFile source destination umask], none)
      ∧ transfer (.dir sub) source destination jobs umask am tarpath
          = transfer (.dir sub) source destination false umask am tarpath
      ∧ (transfer (.dir sub) source destination jobs umask am tarpath).2
          = none := by
  refine ⟨rfl, rfl, ?_⟩
  cases am with
  | none => rfl
  | some mode =>
      simp only [transfer]
      rcases h : autil_tar sub tarpath with ⟨tp, n⟩
      cases tp <;> simp

/-- Claim C7: the low-level runner opens a default stdout sink exactly when
output return was not requested and the caller supplied none, and a default
stderr sink exactly when the caller supplied none; every self-opened sink is
closed on every exit path (the sink report does not depend on the child's
outcome), and a caller-supplied sink is never closed. -/
theorem c7_sink_closure (command : List String)
    (ro so se : Bool) (child : ChildBehavior) :
    (run_command command ro so se child).2
        = ⟨!ro && !so, !se, !ro && !so, !se⟩
      ∧ (run_command command ro so se child).2.closedStdout
          = (run_command command ro so se child).2.openedStdout
      ∧ (run_command command ro so se child).2.closedStderr
          = (run_command command ro so se child).2.openedStderr
      ∧ (so = true → (run_command command ro so se child).2.closedStdout
          = false)
      ∧ (se = true → (run_command command ro so se child).2.closedStderr
          = false) := by
  refine ⟨rfl, rfl, rfl, ?_, ?_⟩ <;> intro h <;> subst h <;>
    simp [run_command]

/-- Witness for C7 at concrete inputs: with caller-supplied sinks neither
sink is closed by the runner. -/
theorem c7_sink_closure_witness :
    (run_command ["ssh"] false true true
        ⟨none, 0, none, true, true⟩).2.closedStdout = false
      ∧ (run_command ["ssh"] false true true
          ⟨none, 0, none, true, true⟩).2.closedStderr = false :=
  ⟨(c7_sink_closure ["ssh"] false true true
      ⟨none, 0, none, true, true⟩).2.2.2.1 rfl,
   (c7_sink_closure ["ssh"] false true true
      ⟨none, 0, none, true, true⟩).2.2.2.2 rfl⟩

/-- Counterexample to claim C1 as stated: `"::1"` is a syntactically valid
IPv6 literal, yet both `run` and the file-streaming path place the token
`"::1"` — not `"[::1]"` — after the remote-execution template tokens; the
helper `_wrap_addr` would bracket it but is not on these paths. -/
theorem c1_counterexample :
    ipaddr.is_ipv6 "::1" = true
      ∧ run_argv ["ssh"] "::1" (.str "true") [] = ["ssh", "::1", "true"]
      ∧ transfer_file_cmd ["ssh"] "::1" "/d" 0o644 none
          = ["ssh", "::1", "cat >/d"]
      ∧ wrap_addr "::1" = "[::1]"
      ∧ ("::1" : String) ≠ "[::1]" := by
  refine ⟨by decide, by decide, by decide, by decide, by decide⟩

/-- Claim C1 as amended: on every command-construction path (`run`,
`run_script` via `run`, and the direct file-streaming path) the token placed
after the remote-execution template tokens is the target address unchanged —
for IPv6 literals as well; the helper `_wrap_addr` does wrap IPv6 literals in
brackets, but none of these paths invokes it, so for an IPv6 literal the
placed token differs from the bracket-wrapped form. -/
theorem c1_address_token_unchanged (exec : List String) (addr : String)
    (command : Command) (env : List (String × String))
    (remote_shell script destination : String) (srcMode : Nat)
    (umask : Option Nat) :
    (run_argv exec addr command env)[exec.length]? = some addr
      ∧ (run_script_argv exec addr remote_shell script env)[exec.length]?
          = some addr
      ∧ (transfer_file_cmd exec addr destination srcMode umask)[exec.length]?
          = some addr
      ∧ wrap_addr addr
          = (if ipaddr.is_ipv6 addr then "[" ++ addr ++ "]" else addr)
      ∧ (ipaddr.is_ipv6 addr = true →
          (run_argv exec addr command env)[exec.length]?
            ≠ some (wrap_addr addr)) := by
  have key : ∀ (x : String),
      ((exec ++ [addr]) ++ [x])[exec.length]? = some addr := by
    intro x
    rw [List.append_assoc]
    exact tokenAfter exec addr [x]
  have h1 : ∀ (c : Command) (e : List (String × String)),
      (run_argv exec addr c e)[exec.length]? = some addr := by
    intro c e
    unfold run_argv
    by_cases he : e.isEmpty <;> simp only [he, if_true, if_false] <;>
      exact key _
  have h3 : (transfer_file_cmd exec addr destination srcMode umask)[exec.length]?
      = some addr := by
    unfold transfer_file_cmd
    cases umask <;> exact tokenAfter exec addr [_]
  refine ⟨h1 command env, h1 _ env, h3, rfl, ?_⟩
  intro hip hcontra
  rw [h1 command env] at hcontra
  have haddr : addr = wrap_addr addr := Option.some.inj hcontra
  rw [wrap_addr, if_pos hip] at haddr
  have hl := congrArg String.length haddr
  rw [String.length_append, String.length_append] at hl
  have h1l : ("[" : String).length = 1 := rfl
  have h2l : ("]" : String).length = 1 := rfl
  omega

/-- Witness for C1 (amended) at a concrete IPv6 literal. -/
theorem c1_address_token_unchanged_witness :
    ipaddr.is_ipv6 "::1" = true
      ∧ (run_argv ["ssh"] "::1" (.str "true") [])[(["ssh"] : List String).length]?
          ≠ some (wrap_addr "::1") :=
  ⟨by decide,
   (c1_address_token_unchanged ["ssh"] "::1" (Command.str "true") []
      "/bin/sh" "/s" "/d" 0 none).2.2.2.2 (by decide)⟩

/-- Claim C2: with a non-empty `env`, the remote command string appended
after the address is exactly `/bin/sh -c ` followed by the shell-quoted
concatenation of `export N1=V1 N2=V2 ...; ` (each value shell-quoted, falsy
values rendering as empty after `=`) and the command string; with an empty
`env`, the command string — a list joined by shell quoting, or a plain string
verbatim — is appended unchanged. -/
theorem c2_run_env_wrapping (exec : List String) (addr : String)
    (command : Command) (env : List (String × String))
    (argList : List String) (s : String) :
    (env ≠ [] →
        run_argv exec addr command env
          = exec ++ [addr,
              "/bin/sh -c " ++ shquot.quote
                (("export " ++ sepJoin " "
                    (env.map (fun p => p.1 ++ "="
                      ++ (if p.2 = "" then "" else shquot.quote p.2)))
                  ++ "; ") ++ command.toStr)])
      ∧ (env = [] →
          run_argv exec addr command env = exec ++ [addr, command.toStr])
      ∧ Command.toStr (.args argList) = shquot.join argList
      ∧ Command.toStr (.str s) = s := by
  refine ⟨?_, ?_, rfl, rfl⟩
  · intro hne
    have he : env.isEmpty = false := by
      cases env with
      | nil => exact absurd rfl hne
      | cons a t => rfl
    unfold run_argv
    rw [he]
    simp [List.append_assoc]
  · intro he
    subst he
    unfold run_argv
    simp

/-- Witness for C2 at the spec's concrete example `env = [("A","1"),
("B","")]`: the remote command is wrapped as
`/bin/sh -c 'export A=1 B=; true'`. -/
theorem c2_run_env_wrapping_witness :
    (([("A", "1"), ("B", "")] : List (String × String)) ≠ [])
      ∧ run_argv ["ssh"] "h" (.str "true") [("A", "1"), ("B", "")]
          = ["ssh", "h", "/bin/sh -c 'export A=1 B=; true'"] := by
  refine ⟨by decide, ?_⟩
  have h := (c2_run_env_wrapping ["ssh"] "h" (Command.str "true")
    [("A", "1"), ("B", "")] [] "").1 (by decide)
  rw [h]
  rfl

/-- Counterexample to claim C6 as stated: with output return not requested
and a zero exit status, undecodable bytes in the stderr sink make the trace
read-back (`util.log_std_fd`, called inside the `try` at remote.py:314-315)
raise `UnicodeDecodeError`, which the handler at remote.py:327-328 converts
to the decode error — contradicting the claim that the decode error arises
only from captured stdout when `return_output` was requested, and that a
zero exit with decodable (captured) output raises nothing. -/
theorem c6_counterexample :
    (run ["ssh"] "h" (.str "true") [] false false false
        ⟨none, 0, none, true, false⟩).1
      = .error (.decodeError (run_argv ["ssh"] "h" (.str "true") [])) := rfl

/-- Claim C6 as amended: `run` raises exactly one of two error kinds — a
launch failure or a non-zero exit yields the execution error whose message
starts with the fully rendered command line (with the OS error description
appended when the launch failed); the decode error carrying the command is
raised on a zero exit status when the captured stdout fails to decode
(`return_output` requested), or when the trace read-back of the stderr sink
or of a present stdout sink yields undecodable bytes; a zero exit where the
captured output (when requested) and every read-back sink decode raises
nothing. -/
theorem c6_error_taxonomy_with_sink_readback (exec : List String)
    (addr : String) (command : Command) (env : List (String × String))
    (ro so se : Bool) (child : ChildBehavior) :
    (∀ m, child.launchError = some m →
        (run exec addr command env ro so se child).1
          = .error (.execError
              (shquot.join (run_argv exec addr command env) ++ ": " ++ m)))
      ∧ (child.launchError = none → child.exitCode ≠ 0 →
          (run exec addr command env ro so se child).1
            = .error (.execError
                (shquot.join (run_argv exec addr command env) ++ ": "
                  ++ pyStrList (run_argv exec addr command env))))
      ∧ (child.launchError = none → child.exitCode = 0 →
          ((ro = true ∧ child.output = none)
              ∨ child.stderrSinkDecodes = false
              ∨ ((!ro || so) = true ∧ child.stdoutSinkDecodes = false)) →
          (run exec addr command env ro so se child).1
            = .error (.decodeError (run_argv exec addr command env)))
      ∧ (child.launchError = none → child.exitCode = 0 → ro = false →
          child.stderrSinkDecodes = true → child.stdoutSinkDecodes = true →
          (run exec addr command env ro so se child).1 = .ok none)
      ∧ (∀ o, child.launchError = none → child.exitCode = 0 → ro = true →
          child.output = some o → child.stderrSinkDecodes = true →
          (so = true → child.stdoutSinkDecodes = true) →
          (run exec addr command env ro so se child).1 = .ok (some o))
      ∧ (∀ e, (run exec addr command env ro so se child).1
            = .error (.execError e) →
          ∃ t, e = shquot.join (run_argv exec addr command env) ++ t) := by
  obtain ⟨le, ec, out, sod, sed⟩ := child
  refine ⟨?_, ?_, ?_, ?_, ?_, ?_⟩
  · intro m hm
    simp only at hm
    subst hm
    simp [run, run_command]
  · intro h0 hne
    simp only at h0 hne
    subst h0
    simp [run, run_command, hne]
  · intro h0 he htrig
    simp only at h0 he
    subst h0
    subst he
    rcases htrig with ⟨hro, hout⟩ | hsed | ⟨hpres, hsod⟩
    · simp only at hro hout
      subst hro
      subst hout
      simp [run, run_command]
    · simp only at hsed
      subst hsed
      cases ro <;> cases out <;> simp [run, run_command]
    · simp only at hpres hsod
      subst hsod
      cases ro <;> cases out <;> cases sed <;>
        simp_all [run, run_command]
  · intro h0 he hro hsed hsod
    simp only at h0 he hsed hsod
    subst h0
    subst he
    subst hro
    subst hsed
    subst hsod
    simp [run, run_command]
  · intro o h0 he hro hout hsed hsup
    simp only at h0 he hout hsed
    subst h0
    subst he
    subst hro
    subst hout
    subst hsed
    cases so with
    | false => simp [run, run_command]
    | true =>
        have hs := hsup rfl
        simp only at hs
        subst hs
        simp [run, run_command]
  · intro e he
    cases le with
    | some m =>
        simp only [run, run_command] at he
        have hm := RunError.execError.inj (Except.error.inj he)
        exact ⟨": " ++ m, by rw [← hm, strAppendAssoc]⟩
    | none =>
        by_cases hec : ec = 0
        · subst hec
          cases ro <;> cases out <;> cases sed <;> cases sod <;> cases so <;>
            simp [run, run_command] at he
        · simp only [run, run_command] at he
          rw [if_pos hec] at he
          have hm := RunError.execError.inj (Except.error.inj he)
          exact ⟨": " ++ pyStrList (run_argv exec addr command env),
            by rw [← hm, strAppendAssoc]⟩

/-- Witness for C6 (amended) at concrete inputs: a child exiting with status
1 yields the execution error carrying the rendered command line; a zero exit
with decodable sinks and no output return yields success. -/
theorem c6_error_taxonomy_with_sink_readback_witness :
    (run ["ssh"] "h" (.str "true") [] false false false
        ⟨none, 1, none, true, true⟩).1
        = .error (.execError
            (shquot.join (run_argv ["ssh"] "h" (.str "true") []) ++ ": "
              ++ pyStrList (run_argv ["ssh"] "h" (.str "true") [])))
      ∧ (run ["ssh"] "h" (.str "true") [] false false false
          ⟨none, 0, none, true, true⟩).1 = .ok none :=
  ⟨(c6_error_taxonomy_with_sink_readback ["ssh"] "h" (Command.str "true") []
      false false false ⟨none, 1, none, true, true⟩).2.1 rfl (by decide),
   (c6_error_taxonomy_with_sink_readback ["ssh"] "h" (Command.str "true") []
      false false false ⟨none, 0, none, true, true⟩).2.2.2.1
     rfl rfl rfl rfl rfl⟩

theorem dedupAcc_mem (xs : List String) :
    ∀ (seen : List String) (b : String),
      b ∈ dedupAcc xs seen ↔ b ∈ xs ∧ b ∉ seen := by
  induction xs with
  | nil => intro seen b; simp [dedupAcc]
  | cons x t ih =>
      intro seen b
      by_cases hx : x ∈ seen
      · rw [dedupAcc, if_pos hx, ih]
        constructor
        · rintro ⟨hbt, hbs⟩
          exact ⟨List.mem_cons_of_mem _ hbt, hbs⟩
        · rintro ⟨hb, hbs⟩
          rcases List.mem_cons.1 hb with rfl | hbt
          · exact absurd hx hbs
          · exact ⟨hbt, hbs⟩
      · rw [dedupAcc, if_neg hx]
        constructor
        · intro hb
          rcases List.mem_cons.1 hb with rfl | hbt
          · exact ⟨List.mem_cons_self _ _, hx⟩
          · obtain ⟨h1, h2⟩ := (ih (x :: seen) b).1 hbt
            exact ⟨List.mem_cons_of_mem _ h1,
              fun hs => h2 (List.mem_cons_of_mem _ hs)⟩
        · rintro ⟨hb, hbs⟩
          rcases List.mem_cons.1 hb with rfl | hbt
          · exact List.mem_cons_self _ _
          · by_cases hbx : b = x
            · subst hbx; exact List.mem_cons_self _ _
            · refine List.mem_cons_of_mem _ ((ih (x :: seen) b).2 ⟨hbt, ?_⟩)
              intro hb2
              rcases List.mem_cons.1 hb2 with rfl | hbs2
              · exact hbx rfl
              · exact hbs hbs2

theorem dedupAcc_nodup (xs : List String) :
    ∀ (seen : List String), (dedupAcc xs seen).Nodup := by
  induction xs with
  | nil => intro seen; simp [dedupAcc]
  | cons x t ih =>
      intro seen
      by_cases hx : x ∈ seen
      · rw [dedupAcc, if_pos hx]; exact ih seen
      · rw [dedupAcc, if_neg hx]
        refine List.nodup_cons.2 ⟨?_, ih _⟩
        intro hmem
        exact ((dedupAcc_mem t (x :: seen) x).1 hmem).2
          (List.mem_cons_self _ _)

theorem dedupAcc_sublist (xs : List String) :
    ∀ (seen : List String), (dedupAcc xs seen).Sublist xs := by
  induction xs with
  | nil => intro seen; simp [dedupAcc]
  | cons x t ih =>
      intro seen
      by_cases hx : x ∈ seen
      · rw [dedupAcc, if_pos hx]
        exact (ih seen).cons x
      · rw [dedupAcc, if_neg hx]
        exact (ih (x :: seen)).cons₂ x

theorem dedupAcc_pairwise (xs : List String) :
    ∀ (seen : List String),
      (dedupAcc xs seen).Pairwise
        (fun a b => xs.indexOf a < xs.indexOf b) := by
  induction xs with
  | nil => intro seen; simp [dedupAcc]
  | cons x t ih =>
      intro seen
      by_cases hx : x ∈ seen
      · rw [dedupAcc, if_pos hx]
        refine (ih seen).imp_of_mem ?_
        intro a b ha hb hR
        have hax : x ≠ a := fun h =>
          ((dedupAcc_mem t seen a).1 ha).2 (h ▸ hx)
        have hbx : x ≠ b := fun h =>
          ((dedupAcc_mem t seen b).1 hb).2 (h ▸ hx)
        rw [List.indexOf_cons_ne t hax, List.indexOf_cons_ne t hbx]
        exact Nat.succ_lt_succ hR
      · rw [dedupAcc, if_neg hx]
        refine List.pairwise_cons.2 ⟨?_, ?_⟩
        · intro b hb
          have hmem := (dedupAcc_mem t (x :: seen) b).1 hb
          have hbx : x ≠ b := fun h =>
            hmem.2 (h ▸ List.mem_cons_self x seen)
          rw [List.indexOf_cons_self, List.indexOf_cons_ne t hbx]
          exact Nat.succ_pos _
        · refine (ih (x :: seen)).imp_of_mem ?_
          intro a b ha hb hR
          have hax : x ≠ a := fun h =>
            ((dedupAcc_mem t (x :: seen) a).1 ha).2
              (h ▸ List.mem_cons_self x seen)
          have hbx : x ≠ b := fun h =>
            ((dedupAcc_mem t (x :: seen) b).1 hb).2
              (h ▸ List.mem_cons_self x seen)
          rw [List.indexOf_cons_ne t hax, List.indexOf_cons_ne t hbx]
          exact Nat.succ_lt_succ hR

theorem dedupAcc_of_nodup (l : List String) :
    ∀ (seen : List String), l.Nodup → (∀ a ∈ seen, a ∉ l) →
      dedupAcc l seen = l := by
  induction l with
  | nil => intro seen _ _; rfl
  | cons x t ih =>
      intro seen hnd hdisj
      have hx : x ∉ seen := fun hs => hdisj x hs (List.mem_cons_self _ _)
      rw [dedupAcc, if_neg hx]
      congr 1
      refine ih (x :: seen) (List.nodup_cons.1 hnd).2 ?_
      intro a ha
      rcases List.mem_cons.1 ha with rfl | has
      · exact (List.nodup_cons.1 hnd).1
      · exact fun hat => hdisj a has (List.mem_cons_of_mem _ hat)

/-- Claim C9: `resolve_conf_dirs` returns the concatenation of its inputs
with duplicates removed: a subsequence of the concatenation, without
duplicates, containing exactly the concatenation's elements, ordered by
first occurrence in the concatenation; applying it to its own result is the
identity. -/
theorem c9_resolve_conf_dirs (args : List (List String)) :
    (resolve_conf_dirs args).Sublist args.flatten
      ∧ (resolve_conf_dirs args).Nodup
      ∧ (∀ x, x ∈ resolve_conf_dirs args ↔ x ∈ args.flatten)
      ∧ (resolve_conf_dirs args).Pairwise
          (fun a b => args.flatten.indexOf a < args.flatten.indexOf b)
      ∧ resolve_conf_dirs [resolve_conf_dirs args] = resolve_conf_dirs args := by
  refine ⟨dedupAcc_sublist _ _, dedupAcc_nodup _ _, ?_,
    dedupAcc_pairwise _ _, ?_⟩
  · intro x
    rw [resolve_conf_dirs, dedupAcc_mem]
    simp
  · show dedupAcc ([resolve_conf_dirs args].flatten) [] = _
    simp only [List.flatten_cons, List.flatten_nil, List.append_nil]
    exact dedupAcc_of_nodup _ [] (dedupAcc_nodup _ _)
      (by intro a ha; cases ha)

mutual
theorem entry_file_stream_mem : ∀ (u : Option Nat) (src dst : String)
    (e : FsEntry) (p : List String), p ∈ entryFilePaths e →
      TransferEvent.streamFile (joinAll src p) (joinAll dst p) u
        ∈ entryEvents u src dst e
  | u, src, dst, .file n, p, hp => by
      simp only [entryFilePaths, List.mem_singleton] at hp
      subst hp
      exact List.mem_singleton.2 rfl
  | u, src, dst, .dir n sub, p, hp => by
      simp only [entryFilePaths, List.mem_map] at hp
      obtain ⟨q, hq, rfl⟩ := hp
      exact List.mem_cons_of_mem _
        (forest_file_stream_mem u (pjoin src n) (pjoin dst n) sub q hq)
theorem forest_file_stream_mem : ∀ (u : Option Nat) (src dst : String)
    (f : FsForest) (p : List String), p ∈ forestFilePaths f →
      TransferEvent.streamFile (joinAll src p) (joinAll dst p) u
        ∈ forestEvents u src dst f
  | u, src, dst, .nil, p, hp => by simp [forestFilePaths] at hp
  | u, src, dst, .cons e t, p, hp => by
      simp only [forestFilePaths, List.mem_append] at hp
      rcases hp with hp | hp
      · by_cases hv : visibleEntry e
        · rw [if_pos hv] at hp
          simp only [forestEvents, if_pos hv]
          exact List.mem_append_left _
            (entry_file_stream_mem u src dst e p hp)
        · rw [if_neg hv] at hp
          cases hp
      · simp only [forestEvents]
        exact List.mem_append_right _
          (forest_file_stream_mem u src dst t p hp)
end

mutual
theorem entry_dir_mkdir_mem : ∀ (u : Option Nat) (src dst : String)
    (e : FsEntry) (p : List String), p ∈ entryDirPaths e →
      TransferEvent.mkdirRemote (joinAll dst p) u ∈ entryEvents u src dst e
  | u, src, dst, .file n, p, hp => by simp [entryDirPaths] at hp
  | u, src, dst, .dir n sub, p, hp => by
      simp only [entryDirPaths, List.mem_cons, List.mem_map] at hp
      rcases hp with rfl | ⟨q, hq, rfl⟩
      · exact List.mem_cons_self _ _
      · exact List.mem_cons_of_mem _
          (forest_dir_mkdir_mem u (pjoin src n) (pjoin dst n) sub q hq)
theorem forest_dir_mkdir_mem : ∀ (u : Option Nat) (src dst : String)
    (f : FsForest) (p : List String), p ∈ forestDirPaths f →
      TransferEvent.mkdirRemote (joinAll dst p) u ∈ forestEvents u src dst f
  | u, src, dst, .nil, p, hp => by simp [forestDirPaths] at hp
  | u, src, dst, .cons e t, p, hp => by
      simp only [forestDirPaths, List.mem_append] at hp
      rcases hp with hp | hp
      · by_cases hv : visibleEntry e
        · rw [if_pos hv] at hp
          simp only [forestEvents, if_pos hv]
          exact List.mem_append_left _
            (entry_dir_mkdir_mem u src dst e p hp)
        · rw [if_neg hv] at hp
          cases hp
      · simp only [forestEvents]
        exact List.mem_append_right _
          (forest_dir_mkdir_mem u src dst t p hp)
end

/-- Counterexample to claim C5 as stated: a source directory whose only
entry is the hidden file `.h` — `glob.glob1(source, "*")` hides dot-entries,
so the plain path transfers nothing: the entry `.h` is skipped, contradicting
"no entry of the source directory skipped". -/
theorem c5_counterexample :
    transfer (.dir (.cons (.file ".h") .nil)) "/s" "/d" false none none "/t"
        = ([.mkdirRemote "/d" none], none)
      ∧ TransferEvent.streamFile "/s/.h" "/d/.h" none
          ∉ (transfer (.dir (.cons (.file ".h") .nil)) "/s" "/d" false none
              none "/t").1 := by
  exact ⟨by decide, by decide⟩

/-- Claim C5 as amended: on the plain (non-archive) path, every entry of the
source tree reachable through components that `glob1(·, "*")` lists (names
not beginning with a dot) is transferred: each such subdirectory is created
remotely with the umask propagated, and each such file is streamed to the
remote path obtained by replacing the source prefix with the destination
prefix; entries with a leading-dot name component are skipped by the
directory listing. -/
theorem c5_plain_walk_visible_entries (u : Option Nat) (src dst : String)
    (f : FsForest) :
    (∀ p ∈ forestFilePaths f,
        TransferEvent.streamFile (joinAll src p) (joinAll dst p) u
          ∈ forestEvents u src dst f)
      ∧ (∀ p ∈ forestDirPaths f,
          TransferEvent.mkdirRemote (joinAll dst p) u
            ∈ forestEvents u src dst f) :=
  ⟨fun p hp => forest_file_stream_mem u src dst f p hp,
   fun p hp => forest_dir_mkdir_mem u src dst f p hp⟩

/-- Witness for C5 (amended) on a concrete two-level tree. -/
theorem c5_plain_walk_visible_entries_witness :
    (["d", "a"] ∈ forestFilePaths
        (.cons (.dir "d" (.cons (.file "a") .nil)) .nil))
      ∧ TransferEvent.streamFile "/s/d/a" "/d/d/a" none
          ∈ forestEvents none "/s" "/d"
              (.cons (.dir "d" (.cons (.file "a") .nil)) .nil) :=
  ⟨by decide,
   (c5_plain_walk_visible_entries none "/s" "/d"
      (.cons (.dir "d" (.cons (.file "a") .nil)) .nil)).1
     ["d", "a"] (by decide)⟩

theorem streamCount_append (l1 l2 : List TransferEvent) :
    streamCount (l1 ++ l2) = streamCount l1 + streamCount l2 := by
  simp [streamCount, List.filter_append]

theorem archiveCount_append (l1 l2 : List TransferEvent) :
    archiveCount (l1 ++ l2) = archiveCount l1 + archiveCount l2 := by
  simp [archiveCount, List.filter_append]

mutual
theorem entry_stream_count : ∀ (u : Option Nat) (src dst : String)
    (e : FsEntry),
      streamCount (entryEvents u src dst e) = entryVisibleFiles e
  | u, src, dst, .file n => by
      simp [entryEvents, entryVisibleFiles, streamCount, isStreamEvent]
  | u, src, dst, .dir n sub => by
      simp only [entryEvents, entryVisibleFiles, streamCount,
        List.filter_cons, isStreamEvent]
      exact forest_stream_count u (pjoin src n) (pjoin dst n) sub
theorem forest_stream_count : ∀ (u : Option Nat) (src dst : String)
    (f : FsForest),
      streamCount (forestEvents u src dst f) = forestVisibleFiles f
  | u, src, dst, .nil => by
      simp [forestEvents, forestVisibleFiles, streamCount]
  | u, src, dst, .cons e t => by
      simp only [forestEvents, forestVisibleFiles]
      rw [streamCount_append]
      by_cases hv : visibleEntry e
      · rw [if_pos hv, if_pos hv, entry_stream_count u src dst e,
          forest_stream_count u src dst t]
      · rw [if_neg hv, if_neg hv, forest_stream_count u src dst t]
        simp [streamCount]
end

mutual
theorem entry_archive_count : ∀ (u : Option Nat) (src dst : String)
    (e : FsEntry), archiveCount (entryEvents u src dst e) = 0
  | u, src, dst, .file n => by
      simp [entryEvents, archiveCount, isArchiveEvent]
  | u, src, dst, .dir n sub => by
      simp only [entryEvents, archiveCount, List.filter_cons, isArchiveEvent]
      exact forest_archive_count u (pjoin src n) (pjoin dst n) sub
theorem forest_archive_count : ∀ (u : Option Nat) (src dst : String)
    (f : FsForest), archiveCount (forestEvents u src dst f) = 0
  | u, src, dst, .nil => by simp [forestEvents, archiveCount]
  | u, src, dst, .cons e t => by
      simp only [forestEvents]
      rw [archiveCount_append]
      by_cases hv : visibleEntry e
      · rw [if_pos hv, entry_archive_count u src dst e,
          forest_archive_count u src dst t]
      · rw [if_neg hv, forest_archive_count u src dst t]
        simp [archiveCount]
end

/-- Counterexample to claim C4 as stated: a directory whose single file is
the hidden `.h` and whose file count (1) is below the archiving threshold —
the claim promises one streamed transfer per file, but the plain walk streams
nothing because `glob1(·, "*")` hides dot-entries. -/
theorem c4_counterexample :
    forestFileCount (.cons (.file ".h") .nil) = 1
      ∧ forestFileCount (.cons (.file ".h") .nil) < FILES_LIMIT
      ∧ streamCount ((transfer (.dir (.cons (.file ".h") .nil)) "/s" "/d"
          false none (some ⟨[]⟩) "/t.tar").1) = 0
      ∧ streamCount ((transfer (.dir (.cons (.file ".h") .nil)) "/s" "/d"
            false none (some ⟨[]⟩) "/t.tar").1)
          ≠ forestFileCount (.cons (.file ".h") .nil) := by
  exact ⟨by decide, by decide, by decide, by decide⟩

/-- Claim C4 as amended: with archiving configured, a directory source whose
file count reaches the threshold yields exactly — in order — one archive
creation, one streamed transfer of the archive, one remote extraction whose
target directory is the directory containing the remote archive (derived
from the archive's own path), one remote archive deletion, and one local
archive deletion, with zero per-file streamed transfers; below the
threshold, one streamed transfer per file reachable through non-hidden path
components (dot-entries are hidden from the walk) and zero archive
operations. -/
theorem c4_archive_vs_plain (f : FsForest) (source destination : String)
    (u : Option Nat) (mode : ArchivingMode) (tarpath : String) :
    (FILES_LIMIT ≤ forestFileCount f →
        transfer (.dir f) source destination false u (some mode) tarpath
          = ([.mkdirRemote destination u,
              .archiveCreate source tarpath,
              .streamFile tarpath (pjoin destination (pbasename tarpath))
                none,
              .extractRemote (pjoin destination (pbasename tarpath))
                (pdirname (pjoin destination (pbasename tarpath)))
                mode.extract_opts,
              .rmfileRemote (pjoin destination (pbasename tarpath)),
              .removeLocal tarpath], none))
      ∧ (forestFileCount f < FILES_LIMIT →
          (transfer (.dir f) source destination false u (some mode)
                tarpath).1
              = .mkdirRemote destination u
                  :: forestEvents u source destination f
            ∧ streamCount (forestEvents u source destination f)
                = forestVisibleFiles f
            ∧ archiveCount ((transfer (.dir f) source destination false u
                (some mode) tarpath).1) = 0) := by
  constructor
  · intro h
    simp only [transfer, autil_tar, if_pos h]
    rfl
  · intro h
    have hn : ¬ FILES_LIMIT ≤ forestFileCount f := Nat.not_le.2 h
    simp only [transfer, autil_tar, if_neg hn]
    refine ⟨rfl, forest_stream_count u source destination f, ?_⟩
    simp only [archiveCount, List.cons_append, List.nil_append,
      List.filter_cons, isArchiveEvent]
    exact forest_archive_count u source destination f

/-- Witness for C4 (amended) at concrete inputs: a ten-file source reaches
the threshold and takes the bulk path; a one-file source stays below it and
takes the plain path. -/
theorem c4_archive_vs_plain_witness :
    (FILES_LIMIT ≤ forestFileCount
        (.cons (.file "f0") (.cons (.file "f1") (.cons (.file "f2")
          (.cons (.file "f3") (.cons (.file "f4") (.cons (.file "f5")
          (.cons (.file "f6") (.cons (.file "f7") (.cons (.file "f8")
          (.cons (.file "f9") .nil)))))))))))
      ∧ transfer (.dir (.cons (.file "f0") (.cons (.file "f1")
            (.cons (.file "f2") (.cons (.file "f3") (.cons (.file "f4")
            (.cons (.file "f5") (.cons (.file "f6") (.cons (.file "f7")
            (.cons (.file "f8") (.cons (.file "f9") .nil)))))))))))
            "/s" "/d" false none (some ⟨["--opt"]⟩) "/tmp/c.tar"
          = ([.mkdirRemote "/d" none,
              .archiveCreate "/s" "/tmp/c.tar",
              .streamFile "/tmp/c.tar" (pjoin "/d" (pbasename "/tmp/c.tar"))
                none,
              .extractRemote (pjoin "/d" (pbasename "/tmp/c.tar"))
                (pdirname (pjoin "/d" (pbasename "/tmp/c.tar"))) ["--opt"],
              .rmfileRemote (pjoin "/d" (pbasename "/tmp/c.tar")),
              .removeLocal "/tmp/c.tar"], none)
      ∧ forestFileCount (.cons (.file "a") .nil) < FILES_LIMIT
      ∧ streamCount (forestEvents none "/s" "/d" (.cons (.file "a") .nil))
          = forestVisibleFiles (.cons (.file "a") .nil) :=
  ⟨by decide,
   (c4_archive_vs_plain
      (.cons (.file "f0") (.cons (.file "f1") (.cons (.file "f2")
        (.cons (.file "f3") (.cons (.file "f4") (.cons (.file "f5")
        (.cons (.file "f6") (.cons (.file "f7") (.cons (.file "f8")
        (.cons (.file "f9") .nil))))))))))
      "/s" "/d" none ⟨["--opt"]⟩ "/tmp/c.tar").1 (by decide),
   by decide,
   ((c4_archive_vs_plain (.cons (.file "a") .nil) "/s" "/d" none
      ⟨["--opt"]⟩ "/tmp/c.tar").2 (by decide)).2.1⟩

end CdistExec
